import Mathlib

/-!
Shallow embedding of `add_files_to_xcode.py`, the single source file of the
pet-safety-ios repository: a script that splices file-reference, build-file and
build-phase entries into an Xcode `project.pbxproj` manifest by regular-expression
search and string slicing.

The manifest is modelled as a list of characters.  Each `re.search` call of the
source uses a pattern built from literal segments separated by wildcards, so each
one is modelled by an executable scanning function implementing the leftmost-match
semantics of that concrete pattern (greedy `.*` tries the latest continuation
first, lazy `.*?` the earliest).  The randomness of `uuid.uuid4()` is modelled by
an explicit stream of 128-bit numbers, and file I/O by passing the file content
in and returning the written content out.
-/

namespace PetSafetyXcode

/-- Manifest text, modelled as a list of characters. -/
abbrev Text := List Char

/-- The character list of a string literal. -/
def lit (s : String) : Text := s.data

/-- One left-to-right scan for all occurrences of `pat`: `j` is the position of
the suffix `t` within the whole text. -/
def occsFrom (pat : Text) : Text → Nat → List Nat
  | [], j => if pat.isPrefixOf [] then [j] else []
  | c :: t2, j =>
    if pat.isPrefixOf (c :: t2) then j :: occsFrom pat t2 (j + 1)
    else occsFrom pat t2 (j + 1)

/-- All start positions at which `pat` occurs as a contiguous substring of `t`,
in ascending order (the lemma `occs_eq` states this characterisation). -/
def occs (pat t : Text) : List Nat := occsFrom pat t 0

/-- The number of occurrences of `pat` in `t` (at distinct start positions). -/
def countOccs (pat t : Text) : Nat := (occs pat t).length

/-- Position of the first occurrence of the literal `pat` in `t`.  This is the
start of the match of `re.search` on a pattern consisting of this literal. -/
def findLit (pat t : Text) : Option Nat := (occs pat t).head?

/-- Scanning from position `i`, find each literal of the list in turn, each one
at or after the end of the previous one.  A `re.search` with DOTALL on a pattern
of literal segments separated by lazy `.*?` wildcards succeeds exactly when this
scan succeeds. -/
def seqFrom (t : Text) : Nat → List Text → Bool
  | _, [] => true
  | i, p :: ps =>
    match ((occs p t).filter (fun j => i ≤ j)).head? with
    | some j => seqFrom t (j + p.length) ps
    | none => false

/-- Success of the search on line 25 of the source,
`re.search(r'/\* PetSafety \*/.*?isa = PBXGroup;.*?children = \((.*?)\);', content, re.DOTALL)`:
the four literal segments must occur in order.  Only success or failure of this
search is used by the code. -/
def mainSourcesFound (content : Text) : Bool :=
  seqFrom content 0 [lit "/* PetSafety */", lit "isa = PBXGroup;", lit "children = (", lit ");"]

/-- The group search of line 56 of the source,
`re.search(rf'({group_uuid} /\* .* \*/ = \x7b{:})(.*?children = \()(...)' ...)` with DOTALL
(pattern text: group_uuid, then ` /* `, greedy `.*`, ` */ = ` and an opening brace,
lazy `.*?`, `children = (`, the lazy capture group 2, `);`, lazy `.*?`, `isa = PBXGroup;`).
Returns the span `(start, stop)` of capture group 2 — the group's children list — of
the leftmost match.  Start positions are tried left to right; the greedy wildcard
tries the latest ` */ = ` with opening brace first; each lazy wildcard takes the
earliest position from which the rest of the pattern still completes. -/
def groupMatch (content group_uuid : Text) : Option (Nat × Nat) :=
  let pre := group_uuid ++ lit " /* "
  let brace := lit " */ = \x7b"
  let childrenLit := lit "children = ("
  (occs pre content).findSome? (fun p =>
    (((occs brace content).filter (fun b => p + pre.length ≤ b)).reverse).findSome? (fun b =>
      ((occs childrenLit content).filter (fun d => b + brace.length ≤ d)).findSome? (fun d =>
        ((occs (lit ");") content).filter (fun e => d + childrenLit.length ≤ e)).findSome? (fun e =>
          if (occs (lit "isa = PBXGroup;") content).any (fun f => e + (lit ");").length ≤ f)
          then some (d + childrenLit.length, e) else none))))

/-- The compile-sources search of lines 83-84 of the source,
`re.search(r'(/\* Sources \*/ = \x7b{:}.*?files = \()(.*?)(\);.*?isa = PBXSourcesBuildPhase;)', content, re.DOTALL)`
(pattern text: `/* Sources */ = ` and an opening brace, lazy `.*?`, `files = (`, the
lazy capture group 2, `);`, lazy `.*?`, `isa = PBXSourcesBuildPhase;`).
Returns the span `(start, stop)` of capture group 2 of the leftmost match; every
wildcard here is lazy. -/
def sourcesMatch (content : Text) : Option (Nat × Nat) :=
  let pre := lit "/* Sources */ = \x7b"
  let filesLit := lit "files = ("
  (occs pre content).findSome? (fun p =>
    ((occs filesLit content).filter (fun d => p + pre.length ≤ d)).findSome? (fun d =>
      ((occs (lit ");") content).filter (fun e => d + filesLit.length ≤ e)).findSome? (fun e =>
        if (occs (lit "isa = PBXSourcesBuildPhase;") content).any (fun f => e + (lit ");").length ≤ f)
        then some (d + filesLit.length, e) else none)))

/-- `uuid.uuid4().hex`: the 32 lowercase hexadecimal digits of a random 128-bit
value `r`, most significant digit first, zero-padded. -/
def uuid4hex (r : Nat) : Text :=
  (List.range 32).map (fun i => Nat.digitChar (r / 16 ^ (31 - i) % 16))

/-- `generate_uuid` (lines 8-10 of the source): `uuid.uuid4().hex[:24].upper()`,
applied to the 128-bit random value `r`. -/
def generate_uuid (r : Nat) : Text := ((uuid4hex r).take 24).map Char.toUpper

/-- A character allowed by the character class `[A-F0-9]` of `find_group_uuid`:
an uppercase hexadecimal digit. -/
def isUuidChar (c : Char) : Bool :=
  (decide ('A' ≤ c ∧ c ≤ 'F')) || (decide ('0' ≤ c ∧ c ≤ '9'))

/-- Whether the pattern of `find_group_uuid`,
`rf'([A-F0-9]{:24}) /\* {re.escape(group_name)} \*/'`, matches at position `p` of
`content`: 24 uppercase hexadecimal digits followed by ` /* `, the group name, ` */`. -/
def uuidRefAt (content name : Text) (p : Nat) : Bool :=
  let id := (content.drop p).take 24
  decide (id.length = 24) && id.all isUuidChar
    && (lit " /* " ++ name ++ lit " */").isPrefixOf (content.drop (p + 24))

/-- `find_group_uuid` (lines 103-107 of the source): the 24-character identifier of
the leftmost match of `rf'([A-F0-9]{:24}) /\* {re.escape(group_name)} \*/'` in
`content`, or `None` when there is no match. -/
def find_group_uuid (content name : Text) : Option Text :=
  (List.range (content.length + 1)).findSome? (fun p =>
    if uuidRefAt content name p then some ((content.drop p).take 24) else none)

/-- The `PBXFileReference` declaration built on line 41 of the source:
tab, tab, the file-reference identifier, ` /* `, filename, ` */ = `, and the
`isa = PBXFileReference; ... path = filename; ...` body, ending in a newline. -/
def fileRefLine (file_ref_uuid filename : Text) : Text :=
  lit "\t\t" ++ file_ref_uuid ++ lit " /* " ++ filename
    ++ lit " */ = \x7bisa = PBXFileReference; lastKnownFileType = sourcecode.swift; path = "
    ++ filename ++ lit "; sourceTree = \"<group>\"; \x7d;\n"

/-- The `PBXBuildFile` declaration built on line 45 of the source: it is keyed by
the build-file identifier and its `fileRef` field holds the file-reference
identifier. -/
def buildFileLine (build_file_uuid file_ref_uuid filename : Text) : Text :=
  lit "\t\t" ++ build_file_uuid ++ lit " /* " ++ filename
    ++ lit " in Sources */ = \x7bisa = PBXBuildFile; fileRef = "
    ++ file_ref_uuid ++ lit " /* " ++ filename ++ lit " */; \x7d;\n"

/-- The group-children entry built on line 57 of the source: a newline, four tabs,
the file-reference identifier, ` /* `, filename, ` */,`. -/
def newChildEntry (file_ref_uuid filename : Text) : Text :=
  lit "\n\t\t\t\t" ++ file_ref_uuid ++ lit " /* " ++ filename ++ lit " */,"

/-- One build-phase membership entry as formatted on line 90 of the source: a
newline, four tabs, the build-file identifier, ` /* `, filename, ` in Sources */,`. -/
def sourcesEntryText (build_file_uuid filename : Text) : Text :=
  lit "\n\t\t\t\t" ++ build_file_uuid ++ lit " /* " ++ filename ++ lit " in Sources */,"

/-- Decimal text of a number, for the `f"... {len(...)} ..."` log lines. -/
def natText (n : Nat) : Text := (toString n).data

/-- The mutable state of the per-file loop of `add_files_to_xcode_project`:
the manifest text being edited, the three accumulator lists, and the printed
log lines. -/
structure LoopState where
  content : Text
  file_references : List (Text × Text × Text)
  build_file_entries : List (Text × Text × Text)
  sources_build_phase_entries : List (Text × Text)
  log : List Text

/-- One iteration of the `for filename, filepath, group_uuid in files_to_add`
loop (lines 36-61 of the source), with the two freshly generated identifiers
passed in: build the file-reference and build-file declarations, append to the
three accumulator lists, and splice the new child entry into the target group's
children list when the group pattern matches. -/
def addFileStep (file_ref_uuid build_file_uuid : Text) (rec : Text × Text × Text)
    (st : LoopState) : LoopState :=
  let filename := rec.1
  let group_uuid := rec.2.2
  let file_ref := fileRefLine file_ref_uuid filename
  let build_file := buildFileLine build_file_uuid file_ref_uuid filename
  let st1 : LoopState :=
    { st with
      file_references := st.file_references ++ [(file_ref_uuid, filename, file_ref)],
      build_file_entries := st.build_file_entries ++ [(build_file_uuid, filename, build_file)],
      sources_build_phase_entries :=
        st.sources_build_phase_entries ++ [(build_file_uuid, filename)] }
  match groupMatch st1.content group_uuid with
  | some (s2, e2) =>
    let existing_children := (st1.content.drop s2).take (e2 - s2)
    let new_child := newChildEntry file_ref_uuid filename
    let updated_children := existing_children ++ new_child
    { st1 with
      content := st1.content.take s2 ++ updated_children ++ st1.content.drop e2,
      log := st1.log ++ [lit "✓ Added " ++ filename ++ lit " to group"] }
  | none =>
    { st1 with
      log := st1.log ++ [lit "✗ Could not find group " ++ group_uuid ++ lit " for " ++ filename] }

/-- The per-file loop of `add_files_to_xcode_project`.  `k` is the index into the
random stream `rands`; each iteration consumes two random values, for the
file-reference identifier and the build-file identifier, in that order. -/
def processFiles (rands : Nat → Nat) : Nat → List (Text × Text × Text) → LoopState → LoopState
  | _, [], st => st
  | k, rec :: rest, st =>
    processFiles rands (k + 2) rest
      (addFileStep (generate_uuid (rands k)) (generate_uuid (rands (k + 1))) rec st)

/-- The insertion loop of lines 67-70 (and 76-79) of the source: insert each
entry, preceded by a newline, at `insert_pos`, advancing `insert_pos` past the
inserted text each time. -/
def insertEntriesAt : Text → Nat → List Text → Text
  | content, _, [] => content
  | content, insert_pos, ref :: rest =>
    insertEntriesAt
      (content.take insert_pos ++ ('\n' :: ref) ++ content.drop insert_pos)
      (insert_pos + ('\n' :: ref).length) rest

/-- The literal pattern of line 64 of the source. -/
def pbxFileRefHeader : Text := lit "/* Begin PBXFileReference section */"

/-- The literal pattern of line 73 of the source. -/
def pbxBuildFileHeader : Text := lit "/* Begin PBXBuildFile section */"

/-- Lines 64-71 of the source: when the `PBXFileReference` section header is
found, insert every accumulated file-reference declaration right after it and
log a success line; when it is not found, do nothing and log nothing. -/
def insertFileRefSection (content : Text) (refs : List (Text × Text × Text)) :
    Text × List Text :=
  match findLit pbxFileRefHeader content with
  | some p =>
    (insertEntriesAt content (p + pbxFileRefHeader.length) (refs.map (fun r => r.2.2)),
     [lit "✓ Added " ++ natText refs.length ++ lit " file references"])
  | none => (content, [])

/-- Lines 73-80 of the source: the same insertion loop for the `PBXBuildFile`
section. -/
def insertBuildFileSection (content : Text) (entries : List (Text × Text × Text)) :
    Text × List Text :=
  match findLit pbxBuildFileHeader content with
  | some p =>
    (insertEntriesAt content (p + pbxBuildFileHeader.length) (entries.map (fun r => r.2.2)),
     [lit "✓ Added " ++ natText entries.length ++ lit " build file entries"])
  | none => (content, [])

/-- The string `new_files_str` built on lines 88-90 of the source: the
concatenation, in order, of one build-phase membership entry per accumulated
(build-file identifier, filename) pair. -/
def newSourcesText (entries : List (Text × Text)) : Text :=
  entries.foldl (fun acc e => acc ++ sourcesEntryText e.1 e.2) []

/-- Lines 82-95 of the source: when the Sources-build-phase pattern matches,
splice all build-phase membership entries at the end of its files list and log a
success line; otherwise leave the text unchanged and log the failure line. -/
def insertSourcesPhase (content : Text) (entries : List (Text × Text)) :
    Text × List Text :=
  match sourcesMatch content with
  | some (s2, e2) =>
    let existing_files := (content.drop s2).take (e2 - s2)
    let updated_files := existing_files ++ newSourcesText entries
    (content.take s2 ++ updated_files ++ content.drop e2,
     [lit "✓ Added " ++ natText entries.length ++ lit " files to Sources build phase"])
  | none => (content, [lit "✗ Could not find Sources build phase"])

/-- The observable outcome of one call of `add_files_to_xcode_project`:
the final in-memory text, the returned boolean, whether the write-back on
lines 98-99 was reached, and the printed lines. -/
structure EditResult where
  content : Text
  ok : Bool
  wrote : Bool
  log : List Text

/-- `add_files_to_xcode_project` (lines 12-101 of the source), with the file
content passed in instead of read from disk.  When the main-group search fails
the function returns `False` before writing; otherwise it runs the per-file
loop, the two section insertion loops and the build-phase splice, writes the
result back, and returns `True`. -/
def add_files_to_xcode_project (rands : Nat → Nat) (content : Text)
    (files_to_add : List (Text × Text × Text))
    (group_name_to_uuid : List (Text × Text)) : EditResult :=
  if mainSourcesFound content then
    let st := processFiles rands 0 files_to_add ⟨content, [], [], [], []⟩
    let r1 := insertFileRefSection st.content st.file_references
    let r2 := insertBuildFileSection r1.1 st.build_file_entries
    let r3 := insertSourcesPhase r2.1 st.sources_build_phase_entries
    ⟨r3.1, true, true, st.log ++ r1.2 ++ r2.2 ++ r3.2⟩
  else
    ⟨content, false, false, [lit "ERROR: Could not find main PetSafety group"]⟩

/-- The file content on disk after a run: the edited text when the write on
lines 98-99 was reached, the untouched original otherwise. -/
def onDisk (original : Text) (r : EditResult) : Text :=
  if r.wrote then r.content else original

/-- The observable outcome of one run of `main` (lines 109-147 of the source):
the file content on disk afterwards, whether `add_files_to_xcode_project` (the
manifest editor) was invoked at all, and the printed lines. -/
structure MainResult where
  disk : Text
  editorInvoked : Bool
  log : List Text

/-- How Python prints an optional identifier in the f-strings of lines 122-125:
the identifier itself, or the text `None`. -/
def optUuidText : Option Text → Text
  | none => lit "None"
  | some u => u

/-- `main` (lines 109-147 of the source), with the manifest content passed in:
resolve the four hard-coded group names, print each result, stop with an error
line when any is missing, and otherwise run the editor on the fixed four-record
file list. -/
def main_run (rands : Nat → Nat) (content : Text) : MainResult :=
  let services_uuid := find_group_uuid content (lit "Services")
  let views_uuid := find_group_uuid content (lit "Views")
  let components_uuid := find_group_uuid content (lit "Components")
  let models_uuid := find_group_uuid content (lit "Models")
  let found_log : List Text :=
    [lit "Found group UUIDs:",
     lit "  Services: " ++ optUuidText services_uuid,
     lit "  Views: " ++ optUuidText views_uuid,
     lit "  Components: " ++ optUuidText components_uuid,
     lit "  Models: " ++ optUuidText models_uuid,
     lit ""]
  if services_uuid.isNone || views_uuid.isNone
      || components_uuid.isNone || models_uuid.isNone then
    ⟨content, false, found_log ++ [lit "ERROR: Could not find all required group UUIDs"]⟩
  else
    let s := services_uuid.getD []
    let c := components_uuid.getD []
    let files_to_add : List (Text × Text × Text) :=
      [(lit "NetworkMonitor.swift", lit "Services/NetworkMonitor.swift", s),
       (lit "OfflineDataManager.swift", lit "Services/OfflineDataManager.swift", s),
       (lit "SyncService.swift", lit "Services/SyncService.swift", s),
       (lit "OfflineIndicator.swift", lit "Views/Components/OfflineIndicator.swift", c)]
    let r := add_files_to_xcode_project rands content files_to_add []
    ⟨onDisk content r, true,
     found_log ++ [lit "Adding files to Xcode project..."] ++ r.log ++
       (if r.ok then
          [lit "\n✅ Successfully added all files to Xcode project!",
           lit "\nNOTE: The Core Data model (PetSafety.xcdatamodeld) needs to be added manually",
           lit "      or you can open Xcode and use File > Add Files to add it."]
        else [lit "\n❌ Failed to add files to project"])⟩

/-- The `file_references` entries the loop accumulates, written out directly:
one per record, keyed by the file-reference identifier drawn at stream index
`k`, `k + 2`, ... -/
def expectedFileRefs (rands : Nat → Nat) :
    Nat → List (Text × Text × Text) → List (Text × Text × Text)
  | _, [] => []
  | k, rec :: rest =>
    (generate_uuid (rands k), rec.1, fileRefLine (generate_uuid (rands k)) rec.1)
      :: expectedFileRefs rands (k + 2) rest

/-- The `build_file_entries` the loop accumulates, written out directly: one per
record, keyed by the build-file identifier drawn at stream index `k + 1`, and
whose declaration references the file-reference identifier drawn at index `k`. -/
def expectedBuildFiles (rands : Nat → Nat) :
    Nat → List (Text × Text × Text) → List (Text × Text × Text)
  | _, [] => []
  | k, rec :: rest =>
    (generate_uuid (rands (k + 1)), rec.1,
     buildFileLine (generate_uuid (rands (k + 1))) (generate_uuid (rands k)) rec.1)
      :: expectedBuildFiles rands (k + 2) rest

/-- The `sources_build_phase_entries` the loop accumulates, written out
directly: one per record, carrying the same build-file identifier as the
build-file declaration of that record. -/
def expectedSources (rands : Nat → Nat) :
    Nat → List (Text × Text × Text) → List (Text × Text)
  | _, [] => []
  | k, rec :: rest =>
    (generate_uuid (rands (k + 1)), rec.1) :: expectedSources rands (k + 2) rest

/-- The block of text the section-insertion loop `insertEntriesAt` places at the
anchor: each entry preceded by a newline, in order. -/
def joinNl : List Text → Text
  | [] => []
  | r :: rest => ('\n' :: r) ++ joinNl rest

/-- Whether every record's group pattern matches during the loop, mirroring the
loop's own evolution of the text. -/
def groupsAllFound (rands : Nat → Nat) :
    Nat → List (Text × Text × Text) → LoopState → Bool
  | _, [], _ => true
  | k, rec :: rest, st =>
    (groupMatch st.content rec.2.2).isSome &&
      groupsAllFound rands (k + 2) rest
        (addFileStep (generate_uuid (rands k)) (generate_uuid (rands (k + 1))) rec st)

/-- The loop state after the per-file loop of `add_files_to_xcode_project`,
started on the given manifest. -/
def afterLoop (rands : Nat → Nat) (content : Text) (files : List (Text × Text × Text)) :
    LoopState :=
  processFiles rands 0 files ⟨content, [], [], [], []⟩

/-- The manifest text after the `PBXFileReference` section insertions. -/
def afterFileRefs (rands : Nat → Nat) (content : Text) (files : List (Text × Text × Text)) :
    Text :=
  (insertFileRefSection (afterLoop rands content files).content
    (afterLoop rands content files).file_references).1

/-- The manifest text after the `PBXBuildFile` section insertions. -/
def afterBuildFiles (rands : Nat → Nat) (content : Text) (files : List (Text × Text × Text)) :
    Text :=
  (insertBuildFileSection (afterFileRefs rands content files)
    (afterLoop rands content files).build_file_entries).1

/-- Modelled from the spec: the spec describes the `find_group_uuid` pattern as
an identifier followed by a comment CONTAINING the group name.  This predicate
renders that wording: 24 uppercase hexadecimal digits at `p`, then ` /* `, then
a comment body having `name` as a substring, closed by ` */`. -/
def specUuidCommentRefAt (content name : Text) (p : Nat) : Bool :=
  let id := (content.drop p).take 24
  decide (id.length = 24) && id.all isUuidChar
    && (lit " /* ").isPrefixOf (content.drop (p + 24))
    && ((List.range (content.length + 1)).any (fun q =>
          decide (p + 24 + 4 ≤ q) && (lit " */").isPrefixOf (content.drop q)
            && !(occs name ((content.drop (p + 24 + 4)).take (q - (p + 24 + 4)))).isEmpty))

/-- A 24-character identifier used as a concrete group identifier in tests. -/
def aU : Text := lit "AAAAAAAAAAAAAAAAAAAAAAAA"

/-- A concrete file-insertion record, as in the spec's own example: the file
`Foo.swift` destined for the Services group. -/
def recFoo : Text × Text × Text := (lit "Foo.swift", lit "Services/Foo.swift", aU)

/-- A small concrete manifest containing every anchor the script looks for:
both section headers, the main PetSafety group literals, one group `AAAA…A`
named Services, and a Sources build phase. -/
def mA : Text :=
  lit "/* Begin PBXBuildFile section */\n/* End PBXBuildFile section */\n/* Begin PBXFileReference section */\n/* End PBXFileReference section */\n/* PetSafety */ = \x7bisa = PBXGroup;\x7d;\nAAAAAAAAAAAAAAAAAAAAAAAA /* Services */ = \x7bchildren = (\n\t\t\t\t);\x7d;\nisa = PBXGroup;\n/* Sources */ = \x7bfiles = (\n);\nisa = PBXSourcesBuildPhase;\n"

/-- Like `mA` but with no Sources build phase at all. -/
def mB : Text :=
  lit "/* Begin PBXBuildFile section */\n/* End PBXBuildFile section */\n/* Begin PBXFileReference section */\n/* End PBXFileReference section */\n/* PetSafety */ = \x7bisa = PBXGroup;\x7d;\nAAAAAAAAAAAAAAAAAAAAAAAA /* Services */ = \x7bchildren = (\n);\x7d;\nisa = PBXGroup;\n"

/-- A manifest with the main group and the Services group present but with no
section headers and no Sources build phase. -/
def mNoSections : Text :=
  lit "/* PetSafety */ = \x7bisa = PBXGroup;\x7d;\nAAAAAAAAAAAAAAAAAAAAAAAA /* Services */ = \x7bchildren = (\n);\x7d;\nisa = PBXGroup;\n"

/-- A manifest in which the first identifier-followed-by-a-comment whose comment
CONTAINS the word `Services` is the `A…A` one (comment `Old Services`), while
the first comment consisting exactly of `Services` belongs to the `B…B`
identifier. -/
def mC7 : Text :=
  lit "AAAAAAAAAAAAAAAAAAAAAAAA /* Old Services */\nBBBBBBBBBBBBBBBBBBBBBBBB /* Services */\n"

/-- The uuid stream used by the concrete witnesses: distinct leading hex digits,
so the generated identifiers are pairwise distinct. -/
def randsA (k : Nat) : Nat := (k + 1) * 16 ^ 31

/-- The file-reference declaration texts, one per record, in loop order. -/
def refDeclLines (rands : Nat → Nat) (k : Nat) (files : List (Text × Text × Text)) :
    List Text :=
  (expectedFileRefs rands k files).map (fun r => r.2.2)

/-- The build-file declaration texts, one per record, in loop order. -/
def buildDeclLines (rands : Nat → Nat) (k : Nat) (files : List (Text × Text × Text)) :
    List Text :=
  (expectedBuildFiles rands k files).map (fun r => r.2.2)

/-- The concatenation of the build-phase membership entries, written out as a
direct recursion: one entry per accumulated pair, in order. -/
def joinSources : List (Text × Text) → Text
  | [] => []
  | e :: rest => sourcesEntryText e.1 e.2 ++ joinSources rest

section Lemmas

/-- A prefix is no longer than the list it is a prefix of. -/
theorem length_le_of_isPrefixOf : ∀ {l₁ l₂ : Text}, l₁.isPrefixOf l₂ = true → l₁.length ≤ l₂.length
  | [], _, _ => by simp
  | _ :: _, [], h => by simp [List.isPrefixOf] at h
  | a :: l₁, b :: l₂, h => by
    simp only [List.isPrefixOf, Bool.and_eq_true] at h
    have := length_le_of_isPrefixOf h.2
    simp only [List.length_cons]
    omega

/-- The one-pass scan, characterised: it lists exactly the positions of the
range at which the pattern is a prefix of the corresponding suffix. -/
theorem occsFrom_eq (pat : Text) : ∀ (t : Text) (j : Nat),
    occsFrom pat t j
      = ((List.range (t.length + 1)).filter
          (fun i => pat.isPrefixOf (t.drop i))).map (fun i => i + j)
  | [], j => by
    simp only [occsFrom, List.length_nil, Nat.zero_add]
    cases h : pat.isPrefixOf ([] : Text) <;> simp [h, List.range_succ]
  | c :: t2, j => by
    have hfun : ((fun i : Nat => i + j) ∘ Nat.succ) = (fun i : Nat => i + (j + 1)) := by
      funext i
      simp only [Function.comp]
      omega
    have hpred : ((fun i => pat.isPrefixOf ((c :: t2).drop i)) ∘ Nat.succ)
        = (fun i => pat.isPrefixOf (t2.drop i)) := rfl
    have hsplit : ((List.range ((c :: t2).length + 1)).filter
          (fun i => pat.isPrefixOf ((c :: t2).drop i)))
        = (if pat.isPrefixOf (c :: t2) then [0] else [])
          ++ (((List.range (t2.length + 1)).filter
                (fun i => pat.isPrefixOf (t2.drop i))).map Nat.succ) := by
      rw [List.length_cons, List.range_succ_eq_map, List.filter_cons, List.filter_map, hpred]
      cases h : pat.isPrefixOf (c :: t2) <;> simp [h]
    rw [occsFrom, occsFrom_eq pat t2 (j + 1), hsplit]
    cases h : pat.isPrefixOf (c :: t2) with
    | true => simp [h, List.map_map, hfun]
    | false => simp [h, List.map_map, hfun]

/-- `occs` coincides with the specification scan over every position of the
text: the positions, in ascending order, at which the pattern is a prefix of
the suffix starting there. -/
theorem occs_eq (pat t : Text) :
    occs pat t
      = (List.range (t.length + 1)).filter (fun j => pat.isPrefixOf (t.drop j)) := by
  rw [occs, occsFrom_eq pat t 0]
  simp

/-- Membership in `occs` unfolded: the pattern occurs at the position, and the
position is inside the scanned range. -/
theorem mem_occs {pat t : Text} {j : Nat} (h : j ∈ occs pat t) :
    pat.isPrefixOf (t.drop j) = true ∧ j ≤ t.length := by
  rw [occs_eq] at h
  rw [List.mem_filter, List.mem_range] at h
  exact ⟨h.2, by omega⟩

/-- An occurrence of `pat` fits inside `t`. -/
theorem mem_occs_bound {pat t : Text} {j : Nat} (h : j ∈ occs pat t) :
    j + pat.length ≤ t.length := by
  obtain ⟨hp, hj⟩ := mem_occs h
  have := length_le_of_isPrefixOf hp
  rw [List.length_drop] at this
  omega

/-- The head of a list is a member. -/
theorem mem_of_head_eq {l : List Nat} {j : Nat} (h : l.head? = some j) : j ∈ l := by
  cases l with
  | nil => simp at h
  | cons a l => simp at h; simp [h]

/-- `findSome?` over `List.range` returns the value at the least position at
which the function succeeds. -/
theorem findSome_range_min {β : Type} (f : Nat → Option β) :
    ∀ (n : Nat) {b : β}, (List.range n).findSome? f = some b →
    ∃ p, p < n ∧ f p = some b ∧ ∀ q, q < p → f q = none
  | 0, b, h => by simp at h
  | n + 1, b, h => by
    rw [List.range_succ_eq_map, List.findSome?_cons] at h
    cases hf0 : f 0 with
    | some b0 =>
      rw [hf0] at h
      exact ⟨0, by omega, by rw [hf0, ← h], by omega⟩
    | none =>
      rw [hf0] at h
      rw [List.findSome?_map] at h
      obtain ⟨p, hpn, hfp, hmin⟩ := findSome_range_min (f ∘ Nat.succ) n h
      refine ⟨p + 1, by omega, hfp, ?_⟩
      intro q hq
      cases q with
      | zero => exact hf0
      | succ q => exact hmin q (by omega)

/-- Splicing a block between `take e` and `drop e`, the way the code splices the
extended children list: prefix up to the list start, the old list, the new text,
the remainder. -/
theorem splice_children (t x : Text) (s e : Nat) (hse : s ≤ e) :
    t.take s ++ ((t.drop s).take (e - s) ++ x) ++ t.drop e
      = t.take e ++ x ++ t.drop e := by
  have h1 : (t.drop s).take (e - s) = (t.take e).drop s := by
    rw [List.take_drop, Nat.add_sub_cancel' hse]
  have h2 : t.take s = (t.take e).take s := by
    rw [List.take_take, Nat.min_eq_left hse]
  rw [h1, h2]
  simp only [← List.append_assoc]
  rw [List.take_append_drop]

/-- The sequential insertion loop, characterised in one step: it places the
newline-prefixed entries, in order, as one block at the start position. -/
theorem insertEntriesAt_eq :
    ∀ (items : List Text) (t : Text) (pos : Nat), pos ≤ t.length →
    insertEntriesAt t pos items = t.take pos ++ joinNl items ++ t.drop pos
  | [], t, pos, _ => by simp [insertEntriesAt, joinNl]
  | ref :: rest, t, pos, hpos => by
    rw [insertEntriesAt]
    have hlen : (t.take pos ++ ('\n' :: ref)).length = pos + ('\n' :: ref).length := by
      simp only [List.length_append, List.length_take]
      omega
    have hrec := insertEntriesAt_eq rest (t.take pos ++ ('\n' :: ref) ++ t.drop pos)
      (pos + ('\n' :: ref).length)
      (by simp only [List.length_append, List.length_take, List.length_drop]; omega)
    rw [hrec]
    rw [List.take_left' hlen, List.drop_left' hlen]
    simp [joinNl, List.append_assoc]

/-- The accumulating `new_files_str` fold equals the direct concatenation. -/
theorem newSourcesText_eq (entries : List (Text × Text)) :
    newSourcesText entries = joinSources entries := by
  have key : ∀ (l : List (Text × Text)) (acc : Text),
      l.foldl (fun acc e => acc ++ sourcesEntryText e.1 e.2) acc = acc ++ joinSources l := by
    intro l
    induction l with
    | nil => intro acc; simp [joinSources]
    | cons e rest ih =>
      intro acc
      simp only [List.foldl_cons, joinSources, ih, List.append_assoc]
  simpa [newSourcesText] using key entries []

/-- One loop iteration appends exactly one `file_references` entry, in either
branch of the group search. -/
theorem addFileStep_file_references (fr bf : Text) (rec : Text × Text × Text) (st : LoopState) :
    (addFileStep fr bf rec st).file_references
      = st.file_references ++ [(fr, rec.1, fileRefLine fr rec.1)] := by
  simp only [addFileStep]
  split <;> rfl

/-- One loop iteration appends exactly one `build_file_entries` entry, whose
declaration references the file-reference identifier, in either branch. -/
theorem addFileStep_build_file_entries (fr bf : Text) (rec : Text × Text × Text) (st : LoopState) :
    (addFileStep fr bf rec st).build_file_entries
      = st.build_file_entries ++ [(bf, rec.1, buildFileLine bf fr rec.1)] := by
  simp only [addFileStep]
  split <;> rfl

/-- One loop iteration appends exactly one `sources_build_phase_entries` pair,
carrying the build-file identifier, in either branch. -/
theorem addFileStep_sources_entries (fr bf : Text) (rec : Text × Text × Text) (st : LoopState) :
    (addFileStep fr bf rec st).sources_build_phase_entries
      = st.sources_build_phase_entries ++ [(bf, rec.1)] := by
  simp only [addFileStep]
  split <;> rfl

/-- The loop's `file_references` accumulator, fully characterised. -/
theorem processFiles_file_references (rands : Nat → Nat) :
    ∀ (files : List (Text × Text × Text)) (k : Nat) (st : LoopState),
    (processFiles rands k files st).file_references
      = st.file_references ++ expectedFileRefs rands k files
  | [], k, st => by simp [processFiles, expectedFileRefs]
  | rec :: rest, k, st => by
    rw [processFiles, processFiles_file_references rands rest (k + 2) _,
      addFileStep_file_references, expectedFileRefs, List.append_assoc]
    rfl

/-- The loop's `build_file_entries` accumulator, fully characterised. -/
theorem processFiles_build_file_entries (rands : Nat → Nat) :
    ∀ (files : List (Text × Text × Text)) (k : Nat) (st : LoopState),
    (processFiles rands k files st).build_file_entries
      = st.build_file_entries ++ expectedBuildFiles rands k files
  | [], k, st => by simp [processFiles, expectedBuildFiles]
  | rec :: rest, k, st => by
    rw [processFiles, processFiles_build_file_entries rands rest (k + 2) _,
      addFileStep_build_file_entries, expectedBuildFiles, List.append_assoc]
    rfl

/-- The loop's `sources_build_phase_entries` accumulator, fully characterised. -/
theorem processFiles_sources_entries (rands : Nat → Nat) :
    ∀ (files : List (Text × Text × Text)) (k : Nat) (st : LoopState),
    (processFiles rands k files st).sources_build_phase_entries
      = st.sources_build_phase_entries ++ expectedSources rands k files
  | [], k, st => by simp [processFiles, expectedSources]
  | rec :: rest, k, st => by
    rw [processFiles, processFiles_sources_entries rands rest (k + 2) _,
      addFileStep_sources_entries, expectedSources, List.append_assoc]
    rfl

/-- Lengths of the accumulated lists: one entry per record. -/
theorem expectedFileRefs_length (rands : Nat → Nat) :
    ∀ (k : Nat) (files : List (Text × Text × Text)),
    (expectedFileRefs rands k files).length = files.length
  | _, [] => rfl
  | k, _ :: rest => by
    rw [expectedFileRefs, List.length_cons, List.length_cons,
      expectedFileRefs_length rands (k + 2) rest]

/-- Lengths of the accumulated lists: one entry per record. -/
theorem expectedBuildFiles_length (rands : Nat → Nat) :
    ∀ (k : Nat) (files : List (Text × Text × Text)),
    (expectedBuildFiles rands k files).length = files.length
  | _, [] => rfl
  | k, _ :: rest => by
    rw [expectedBuildFiles, List.length_cons, List.length_cons,
      expectedBuildFiles_length rands (k + 2) rest]

/-- Lengths of the accumulated lists: one entry per record. -/
theorem expectedSources_length (rands : Nat → Nat) :
    ∀ (k : Nat) (files : List (Text × Text × Text)),
    (expectedSources rands k files).length = files.length
  | _, [] => rfl
  | k, _ :: rest => by
    rw [expectedSources, List.length_cons, List.length_cons,
      expectedSources_length rands (k + 2) rest]

/-- Inversion of the group search: the returned span lies inside the text, is
well ordered, and its end sits exactly on a `);` closing delimiter. -/
theorem groupMatch_bounds {content g : Text} {s2 e2 : Nat}
    (h : groupMatch content g = some (s2, e2)) :
    s2 ≤ e2 ∧ e2 ≤ content.length ∧ (lit ");").isPrefixOf (content.drop e2) = true := by
  simp only [groupMatch] at h
  obtain ⟨p, hp, h⟩ := List.exists_of_findSome?_eq_some h
  obtain ⟨b, hb, h⟩ := List.exists_of_findSome?_eq_some h
  obtain ⟨d, hd, h⟩ := List.exists_of_findSome?_eq_some h
  obtain ⟨e, he, h⟩ := List.exists_of_findSome?_eq_some h
  rw [List.mem_filter] at he
  split at h
  · obtain ⟨rfl, rfl⟩ : d + (lit "children = (").length = s2 ∧ e = e2 := by
      injection h with h
      exact ⟨congrArg Prod.fst h, congrArg Prod.snd h⟩
    have hde : d + (lit "children = (").length ≤ e := by
      have := he.2
      simpa using this
    exact ⟨hde, (mem_occs he.1).2, (mem_occs he.1).1⟩
  · exact absurd h (by simp)

/-- Inversion of the compile-sources search: same shape as the group search. -/
theorem sourcesMatch_bounds {content : Text} {s2 e2 : Nat}
    (h : sourcesMatch content = some (s2, e2)) :
    s2 ≤ e2 ∧ e2 ≤ content.length ∧ (lit ");").isPrefixOf (content.drop e2) = true := by
  simp only [sourcesMatch] at h
  obtain ⟨p, hp, h⟩ := List.exists_of_findSome?_eq_some h
  obtain ⟨d, hd, h⟩ := List.exists_of_findSome?_eq_some h
  obtain ⟨e, he, h⟩ := List.exists_of_findSome?_eq_some h
  rw [List.mem_filter] at he
  split at h
  · obtain ⟨rfl, rfl⟩ : d + (lit "files = (").length = s2 ∧ e = e2 := by
      injection h with h
      exact ⟨congrArg Prod.fst h, congrArg Prod.snd h⟩
    have hde : d + (lit "files = (").length ≤ e := by
      have := he.2
      simpa using this
    exact ⟨hde, (mem_occs he.1).2, (mem_occs he.1).1⟩
  · exact absurd h (by simp)

/-- Unfolding of `add_files_to_xcode_project` on the success path: the text goes
through the loop, the two section insertions and the build-phase splice, the log
is their concatenation, and the returned flag and the write both happen. -/
theorem add_files_pos_eq (rands : Nat → Nat) (content : Text)
    (files : List (Text × Text × Text)) (g : List (Text × Text))
    (h : mainSourcesFound content = true) :
    add_files_to_xcode_project rands content files g =
      ⟨(insertSourcesPhase (afterBuildFiles rands content files)
          (afterLoop rands content files).sources_build_phase_entries).1,
       true, true,
       (afterLoop rands content files).log
         ++ (insertFileRefSection (afterLoop rands content files).content
              (afterLoop rands content files).file_references).2
         ++ (insertBuildFileSection (afterFileRefs rands content files)
              (afterLoop rands content files).build_file_entries).2
         ++ (insertSourcesPhase (afterBuildFiles rands content files)
              (afterLoop rands content files).sources_build_phase_entries).2⟩ := by
  simp only [add_files_to_xcode_project, h, if_true, afterBuildFiles, afterFileRefs, afterLoop,
    List.append_assoc]

/-- When the group search of one loop iteration succeeds, the iteration splices
the new child entry into the text exactly at the end of the matched children
list. -/
theorem addFileStep_content_found (fr bf : Text) (rec : Text × Text × Text) (st : LoopState)
    {s2 e2 : Nat} (h : groupMatch st.content rec.2.2 = some (s2, e2)) :
    (addFileStep fr bf rec st).content
      = st.content.take e2 ++ newChildEntry fr rec.1 ++ st.content.drop e2 := by
  simp only [addFileStep, h]
  exact splice_children st.content (newChildEntry fr rec.1) s2 e2 (groupMatch_bounds h).1

/-- When the group search of one loop iteration fails, the text is untouched. -/
theorem addFileStep_content_notfound (fr bf : Text) (rec : Text × Text × Text) (st : LoopState)
    (h : groupMatch st.content rec.2.2 = none) :
    (addFileStep fr bf rec st).content = st.content := by
  simp only [addFileStep, h]

/-- When the group search of one loop iteration succeeds, the iteration logs the
per-file success line. -/
theorem addFileStep_log_found (fr bf : Text) (rec : Text × Text × Text) (st : LoopState)
    (h : (groupMatch st.content rec.2.2).isSome = true) :
    (addFileStep fr bf rec st).log
      = st.log ++ [lit "✓ Added " ++ rec.1 ++ lit " to group"] := by
  obtain ⟨⟨s2, e2⟩, hm⟩ := Option.isSome_iff_exists.mp h
  simp only [addFileStep, hm]

/-- A text is a subsequence of itself with a block inserted at any position. -/
theorem sublist_insert (t ins : Text) (p : Nat) :
    List.Sublist t (t.take p ++ ins ++ t.drop p) := by
  conv_lhs => rw [← List.take_append_drop p t]
  rw [List.append_assoc]
  exact (List.sublist_append_right ins (t.drop p)).append_left (t.take p)

/-- One loop iteration only inserts into the text. -/
theorem addFileStep_sublist (fr bf : Text) (rec : Text × Text × Text) (st : LoopState) :
    List.Sublist st.content (addFileStep fr bf rec st).content := by
  cases h : groupMatch st.content rec.2.2 with
  | some se =>
    obtain ⟨s2, e2⟩ := se
    rw [addFileStep_content_found fr bf rec st h]
    exact sublist_insert _ _ _
  | none =>
    rw [addFileStep_content_notfound fr bf rec st h]

/-- The whole loop only inserts into the text. -/
theorem processFiles_sublist (rands : Nat → Nat) :
    ∀ (files : List (Text × Text × Text)) (k : Nat) (st : LoopState),
    List.Sublist st.content (processFiles rands k files st).content
  | [], _, st => List.Sublist.refl st.content
  | rec :: rest, k, st => by
    rw [processFiles]
    exact (addFileStep_sublist _ _ rec st).trans (processFiles_sublist rands rest (k + 2) _)

/-- The sequential insertion loop only inserts into the text. -/
theorem insertEntriesAt_sublist :
    ∀ (items : List Text) (t : Text) (pos : Nat), List.Sublist t (insertEntriesAt t pos items)
  | [], t, _ => List.Sublist.refl t
  | ref :: rest, t, pos => by
    rw [insertEntriesAt]
    exact (sublist_insert t ('\n' :: ref) pos).trans (insertEntriesAt_sublist rest _ _)

/-- The `PBXFileReference` section step only inserts into the text. -/
theorem insertFileRefSection_sublist (t : Text) (refs : List (Text × Text × Text)) :
    List.Sublist t (insertFileRefSection t refs).1 := by
  unfold insertFileRefSection
  cases findLit pbxFileRefHeader t with
  | some p => exact insertEntriesAt_sublist _ t _
  | none => exact List.Sublist.refl t

/-- The `PBXBuildFile` section step only inserts into the text. -/
theorem insertBuildFileSection_sublist (t : Text) (entries : List (Text × Text × Text)) :
    List.Sublist t (insertBuildFileSection t entries).1 := by
  unfold insertBuildFileSection
  cases findLit pbxBuildFileHeader t with
  | some p => exact insertEntriesAt_sublist _ t _
  | none => exact List.Sublist.refl t

/-- The build-phase step only inserts into the text. -/
theorem insertSourcesPhase_sublist (t : Text) (entries : List (Text × Text)) :
    List.Sublist t (insertSourcesPhase t entries).1 := by
  unfold insertSourcesPhase
  cases h : sourcesMatch t with
  | some se =>
    obtain ⟨s2, e2⟩ := se
    dsimp only
    rw [splice_children t (newSourcesText entries) s2 e2 (sourcesMatch_bounds h).1]
    exact sublist_insert _ _ _
  | none => exact List.Sublist.refl t

/-- When every group search of the loop succeeds, the loop log is exactly one
success line per record, in order. -/
theorem processFiles_log_all_found (rands : Nat → Nat) :
    ∀ (files : List (Text × Text × Text)) (k : Nat) (st : LoopState),
    groupsAllFound rands k files st = true →
    (processFiles rands k files st).log
      = st.log ++ files.map (fun f => lit "✓ Added " ++ f.1 ++ lit " to group")
  | [], _, st, _ => by simp [processFiles]
  | rec :: rest, k, st, h => by
    rw [groupsAllFound, Bool.and_eq_true] at h
    rw [processFiles, processFiles_log_all_found rands rest (k + 2) _ h.2,
      addFileStep_log_found _ _ rec st h.1, List.map_cons, List.append_assoc]
    rfl

/-- Every hexadecimal digit character, uppercased, lies in the class `[A-F0-9]`. -/
theorem digitChar_toUpper_ok :
    ∀ d : Nat, d < 16 → isUuidChar ((Nat.digitChar d).toUpper) = true := by decide

/-- A generated identifier has exactly 24 characters. -/
theorem generate_uuid_length (r : Nat) : (generate_uuid r).length = 24 := by
  simp [generate_uuid, uuid4hex]

/-- Every character of a generated identifier is an uppercase hexadecimal digit. -/
theorem generate_uuid_chars (r : Nat) : (generate_uuid r).all isUuidChar = true := by
  rw [List.all_eq_true]
  intro c hc
  rw [generate_uuid] at hc
  obtain ⟨c', hc', rfl⟩ := List.mem_map.mp hc
  have hc'' := List.mem_of_mem_take hc'
  rw [uuid4hex] at hc''
  obtain ⟨i, hi, rfl⟩ := List.mem_map.mp hc''
  exact digitChar_toUpper_ok _ (Nat.mod_lt _ (by norm_num))

/-- Far beyond the end of the text the identifier pattern cannot match. -/
theorem uuidRefAt_far (content name : Text) (p : Nat) (h : content.length < p) :
    uuidRefAt content name p = false := by
  have hd : content.drop p = [] := List.drop_eq_nil_of_le (by omega)
  simp [uuidRefAt, hd]

/-- The `PBXFileReference` section step, unfolded on the found path: the
declaration block lands right after the section header. -/
theorem insertFileRefSection_found (t : Text) (refs : List (Text × Text × Text)) {p : Nat}
    (h : findLit pbxFileRefHeader t = some p) :
    insertFileRefSection t refs
      = (t.take (p + pbxFileRefHeader.length) ++ joinNl (refs.map (fun r => r.2.2))
          ++ t.drop (p + pbxFileRefHeader.length),
         [lit "✓ Added " ++ natText refs.length ++ lit " file references"]) := by
  have hb : p + pbxFileRefHeader.length ≤ t.length :=
    mem_occs_bound (mem_of_head_eq (h : (occs pbxFileRefHeader t).head? = some p))
  simp only [insertFileRefSection, h]
  rw [insertEntriesAt_eq _ t _ hb]

/-- The `PBXBuildFile` section step, unfolded on the found path. -/
theorem insertBuildFileSection_found (t : Text) (entries : List (Text × Text × Text)) {p : Nat}
    (h : findLit pbxBuildFileHeader t = some p) :
    insertBuildFileSection t entries
      = (t.take (p + pbxBuildFileHeader.length) ++ joinNl (entries.map (fun r => r.2.2))
          ++ t.drop (p + pbxBuildFileHeader.length),
         [lit "✓ Added " ++ natText entries.length ++ lit " build file entries"]) := by
  have hb : p + pbxBuildFileHeader.length ≤ t.length :=
    mem_occs_bound (mem_of_head_eq (h : (occs pbxBuildFileHeader t).head? = some p))
  simp only [insertBuildFileSection, h]
  rw [insertEntriesAt_eq _ t _ hb]

/-- The build-phase step, unfolded on the found path: the membership entries
land at the end of the matched files list. -/
theorem insertSourcesPhase_found (t : Text) (entries : List (Text × Text)) {s2 e2 : Nat}
    (h : sourcesMatch t = some (s2, e2)) :
    insertSourcesPhase t entries
      = (t.take e2 ++ newSourcesText entries ++ t.drop e2,
         [lit "✓ Added " ++ natText entries.length ++ lit " files to Sources build phase"]) := by
  simp only [insertSourcesPhase, h]
  rw [splice_children t (newSourcesText entries) s2 e2 (sourcesMatch_bounds h).1]

/-- The build-phase step, unfolded on the not-found path: the text is unchanged
and only the failure line is logged. -/
theorem insertSourcesPhase_notfound (t : Text) (entries : List (Text × Text))
    (h : sourcesMatch t = none) :
    insertSourcesPhase t entries = (t, [lit "✗ Could not find Sources build phase"]) := by
  simp only [insertSourcesPhase, h]

end Lemmas

section Claims

/-- C8: every call of `generate_uuid` returns a string of exactly 24 characters,
each of which is an uppercase hexadecimal digit (0-9, A-F); the function is
total, so no error condition is possible. -/
theorem C8_generate_uuid_format :
    ∀ r : Nat, (generate_uuid r).length = 24 ∧ (generate_uuid r).all isUuidChar = true :=
  fun r => ⟨generate_uuid_length r, generate_uuid_chars r⟩

/-- C6: for every record whose target group's children-list pattern matches in
the manifest text, the loop iteration splices the new child entry in at the end
of the matched children list: the result is the text up to the end of the
captured list, the new entry, and the rest of the text, and the text at the
insertion point starts with the closing `);` delimiter, so the entry lands after
all existing children and immediately before the list's closing delimiter. -/
theorem C6_child_at_end_of_group_list (fr bf : Text) (rec : Text × Text × Text)
    (st : LoopState) (s2 e2 : Nat)
    (h : groupMatch st.content rec.2.2 = some (s2, e2)) :
    (addFileStep fr bf rec st).content
      = st.content.take e2 ++ newChildEntry fr rec.1 ++ st.content.drop e2
    ∧ (lit ");").isPrefixOf (st.content.drop e2) = true
    ∧ s2 ≤ e2 :=
  ⟨addFileStep_content_found fr bf rec st h,
   (groupMatch_bounds h).2.2, (groupMatch_bounds h).1⟩

set_option maxRecDepth 8192 in
/-- Witness for C6: on the concrete manifest `mA` the Services group's children
list is matched at span (228, 233) and the child entry for `Foo.swift` is
spliced in at position 233, right before the closing `);`. -/
theorem C6_witness :
    (addFileStep (generate_uuid (randsA 0)) (generate_uuid (randsA 1)) recFoo
        ⟨mA, [], [], [], []⟩).content
      = mA.take 233 ++ newChildEntry (generate_uuid (randsA 0)) recFoo.1 ++ mA.drop 233 :=
  (C6_child_at_end_of_group_list (generate_uuid (randsA 0)) (generate_uuid (randsA 1))
    recFoo ⟨mA, [], [], [], []⟩ 228 233 (by decide)).1

/-- C9: the file is written back exactly when the main PetSafety group pattern
is found — the returned flag equals the write flag; when no write happens the
in-memory text and the on-disk content are the untouched original; and whenever
the main group is found the write is performed unconditionally, regardless of
the outcome of every later insertion step. -/
theorem C9_writes_iff_main_group_found (rands : Nat → Nat) (content : Text)
    (files : List (Text × Text × Text)) (g : List (Text × Text)) :
    ((add_files_to_xcode_project rands content files g).wrote = mainSourcesFound content)
    ∧ ((add_files_to_xcode_project rands content files g).ok
        = (add_files_to_xcode_project rands content files g).wrote)
    ∧ ((add_files_to_xcode_project rands content files g).wrote = false
        → onDisk content (add_files_to_xcode_project rands content files g) = content
          ∧ (add_files_to_xcode_project rands content files g).content = content)
    ∧ ((add_files_to_xcode_project rands content files g).wrote = true
        → onDisk content (add_files_to_xcode_project rands content files g)
            = (add_files_to_xcode_project rands content files g).content) := by
  cases h : mainSourcesFound content with
  | false => simp [add_files_to_xcode_project, h, onDisk]
  | true => simp [add_files_to_xcode_project, h, onDisk]

set_option maxRecDepth 8192 in
/-- Witness for C9: the manifest `mC7` has no main PetSafety group, so the run
performs no write and the on-disk content stays the original. -/
theorem C9_witness :
    onDisk mC7 (add_files_to_xcode_project randsA mC7 [recFoo] []) = mC7 :=
  ((C9_writes_iff_main_group_found randsA mC7 [recFoo] []).2.2.1 (by decide)).1

/-- C10: every edit is a pure insertion into the in-memory text: for every
manifest and record list, the original text is a subsequence of the final
in-memory text and of the on-disk content, on the failure path as well as on
every success or partial-failure path. -/
theorem C10_edits_are_pure_insertions (rands : Nat → Nat) (content : Text)
    (files : List (Text × Text × Text)) (g : List (Text × Text)) :
    List.Sublist content (add_files_to_xcode_project rands content files g).content
    ∧ List.Sublist content (onDisk content (add_files_to_xcode_project rands content files g)) := by
  cases h : mainSourcesFound content with
  | false => simp [add_files_to_xcode_project, h, onDisk]
  | true =>
    have h1 : List.Sublist content (afterLoop rands content files).content :=
      processFiles_sublist rands files 0 ⟨content, [], [], [], []⟩
    have h2 := insertFileRefSection_sublist (afterLoop rands content files).content
      (afterLoop rands content files).file_references
    have h3 := insertBuildFileSection_sublist (afterFileRefs rands content files)
      (afterLoop rands content files).build_file_entries
    have h4 := insertSourcesPhase_sublist (afterBuildFiles rands content files)
      (afterLoop rands content files).sources_build_phase_entries
    rw [add_files_pos_eq rands content files g h]
    refine ⟨?_, ?_⟩
    · exact ((h1.trans h2).trans h3).trans h4
    · simp only [onDisk]
      exact ((h1.trans h2).trans h3).trans h4

/-- Counterexample to C7: in `mC7` the first textual occurrence of an
identifier followed by a comment CONTAINING the name `Services` is the `A…A`
identifier at position 0 (its comment is `Old Services`), yet `find_group_uuid`
returns the `B…B` identifier, whose comment is exactly `Services`; so the
claim's description of the match — a comment merely containing the name —
does not hold of the code, which requires the comment to equal the name. -/
theorem C7_counterexample :
    specUuidCommentRefAt mC7 (lit "Services") 0 = true
    ∧ (mC7.drop 0).take 24 = lit "AAAAAAAAAAAAAAAAAAAAAAAA"
    ∧ find_group_uuid mC7 (lit "Services") = some (lit "BBBBBBBBBBBBBBBBBBBBBBBB")
    ∧ lit "BBBBBBBBBBBBBBBBBBBBBBBB" ≠ lit "AAAAAAAAAAAAAAAAAAAAAAAA" := by decide

/-- C7 (amended): `find_group_uuid` returns the 24-character uppercase
hexadecimal identifier at the first position where an identifier is followed by
the comment consisting exactly of the group name, and returns `None` exactly
when no position matches; being a pure function of the text it modifies
nothing. -/
theorem C7_find_group_uuid_first_exact (content name u : Text) :
    (find_group_uuid content name = some u →
       ∃ p, uuidRefAt content name p = true
         ∧ u = (content.drop p).take 24
         ∧ u.length = 24 ∧ u.all isUuidChar = true
         ∧ ∀ q, q < p → uuidRefAt content name q = false)
    ∧ (find_group_uuid content name = none → ∀ p, uuidRefAt content name p = false) := by
  constructor
  · intro h
    rw [find_group_uuid] at h
    obtain ⟨p, _, hfp, hmin⟩ := findSome_range_min _ _ h
    have hu : uuidRefAt content name p = true := by
      by_contra hne
      rw [Bool.not_eq_true] at hne
      rw [hne] at hfp
      simp at hfp
    rw [hu] at hfp
    simp only [if_true] at hfp
    injection hfp with hfp
    have hfmt : ((content.drop p).take 24).length = 24
        ∧ ((content.drop p).take 24).all isUuidChar = true := by
      simp only [uuidRefAt, Bool.and_eq_true, decide_eq_true_eq] at hu
      exact ⟨hu.1.1, hu.1.2⟩
    refine ⟨p, hu, hfp.symm, ?_, ?_, ?_⟩
    · rw [hfp] at hfmt
      exact hfmt.1
    · rw [hfp] at hfmt
      exact hfmt.2
    · intro q hq
      have hn := hmin q hq
      by_contra hne
      rw [Bool.not_eq_false] at hne
      rw [hne] at hn
      simp at hn
  · intro h p
    rw [find_group_uuid, List.findSome?_eq_none_iff] at h
    by_cases hp : p ≤ content.length
    · have hn := h p (List.mem_range.mpr (by omega))
      by_contra hne
      rw [Bool.not_eq_false] at hne
      rw [hne] at hn
      simp at hn
    · exact uuidRefAt_far content name p (by omega)

set_option maxRecDepth 8192 in
/-- Witness for C7 (amended): on `mC7` the lookup of `Services` returns the
`B…B` identifier and the amended description holds of it. -/
theorem C7_witness :
    ∃ p, uuidRefAt mC7 (lit "Services") p = true
      ∧ lit "BBBBBBBBBBBBBBBBBBBBBBBB" = (mC7.drop p).take 24
      ∧ (lit "BBBBBBBBBBBBBBBBBBBBBBBB").length = 24
      ∧ (lit "BBBBBBBBBBBBBBBBBBBBBBBB").all isUuidChar = true
      ∧ ∀ q, q < p → uuidRefAt mC7 (lit "Services") q = false :=
  (C7_find_group_uuid_first_exact mC7 (lit "Services")
    (lit "BBBBBBBBBBBBBBBBBBBBBBBB")).1 (by decide)

/-- C3: whenever one of the four hard-coded group names resolves to no
identifier, `main` leaves the manifest untouched and never invokes the manifest
editor; its output names each missing group (the `  <name>: None` line printed
for it) and ends in the error line. -/
theorem C3_missing_group_no_edit (rands : Nat → Nat) (content : Text)
    (h : find_group_uuid content (lit "Services") = none
       ∨ find_group_uuid content (lit "Views") = none
       ∨ find_group_uuid content (lit "Components") = none
       ∨ find_group_uuid content (lit "Models") = none) :
    (main_run rands content).disk = content
    ∧ (main_run rands content).editorInvoked = false
    ∧ lit "ERROR: Could not find all required group UUIDs" ∈ (main_run rands content).log
    ∧ (find_group_uuid content (lit "Services") = none
        → lit "  Services: None" ∈ (main_run rands content).log)
    ∧ (find_group_uuid content (lit "Views") = none
        → lit "  Views: None" ∈ (main_run rands content).log)
    ∧ (find_group_uuid content (lit "Components") = none
        → lit "  Components: None" ∈ (main_run rands content).log)
    ∧ (find_group_uuid content (lit "Models") = none
        → lit "  Models: None" ∈ (main_run rands content).log) := by
  have hcond : ((find_group_uuid content (lit "Services")).isNone
      || (find_group_uuid content (lit "Views")).isNone
      || (find_group_uuid content (lit "Components")).isNone
      || (find_group_uuid content (lit "Models")).isNone) = true := by
    rcases h with h | h | h | h <;> simp [h]
  simp only [main_run, hcond, if_true]
  refine ⟨by trivial, by trivial, by simp, ?_, ?_, ?_, ?_⟩
  · intro hs
    rw [hs]
    have e1 : lit "  Services: None" = lit "  Services: " ++ optUuidText none := by decide
    rw [e1]
    simp
  · intro hs
    rw [hs]
    have e1 : lit "  Views: None" = lit "  Views: " ++ optUuidText none := by decide
    rw [e1]
    simp
  · intro hs
    rw [hs]
    have e1 : lit "  Components: None" = lit "  Components: " ++ optUuidText none := by decide
    rw [e1]
    simp
  · intro hs
    rw [hs]
    have e1 : lit "  Models: None" = lit "  Models: " ++ optUuidText none := by decide
    rw [e1]
    simp

set_option maxRecDepth 8192 in
/-- Witness for C3: the manifest `mA` has a Services group but no Views,
Components or Models group, so `main` aborts without invoking the editor and
names the missing Views group in its output. -/
theorem C3_witness :
    (main_run randsA mA).disk = mA
    ∧ (main_run randsA mA).editorInvoked = false
    ∧ lit "  Views: None" ∈ (main_run randsA mA).log := by
  have h := C3_missing_group_no_edit randsA mA (Or.inr (Or.inl (by decide)))
  exact ⟨h.1, h.2.1, h.2.2.2.2.1 (by decide)⟩

set_option maxRecDepth 8192 in
set_option maxHeartbeats 2000000 in
/-- Counterexample to C5: on the concrete manifest `mA`, the run generates two
distinct identifiers per file, not one.  The first identifier (the
file-reference one) appears exactly three times in the edited text — in the
file-reference declaration, in the build-file declaration's fileRef field, and
in the group-children entry — while the build-phase file-list entry carries the
second, distinct identifier; no entry of the build-phase list carries the first
identifier at all.  So no single generated identifier covers all four places
the claim names. -/
theorem C5_counterexample :
    generate_uuid (randsA 0) ≠ generate_uuid (randsA 1)
    ∧ countOccs (fileRefLine (generate_uuid (randsA 0)) recFoo.1)
        (add_files_to_xcode_project randsA mA [recFoo] []).content = 1
    ∧ countOccs (sourcesEntryText (generate_uuid (randsA 1)) recFoo.1)
        (add_files_to_xcode_project randsA mA [recFoo] []).content = 1
    ∧ countOccs (sourcesEntryText (generate_uuid (randsA 0)) recFoo.1)
        (add_files_to_xcode_project randsA mA [recFoo] []).content = 0
    ∧ countOccs (generate_uuid (randsA 0))
        (add_files_to_xcode_project randsA mA [recFoo] []).content = 3
    ∧ countOccs (generate_uuid (randsA 1))
        (add_files_to_xcode_project randsA mA [recFoo] []).content = 2 := by decide

/-- C5 (amended): for each inserted file TWO synthetic identifiers are
generated, in stream order.  The file-reference identifier is used three times
— it keys the file-reference declaration, fills the fileRef field of the
build-file declaration, and forms the group-children entry spliced in when the
group matches — while the build-file identifier is used twice, keying the
build-file declaration and the build-phase membership entry; each identifier is
a 24-character uppercase hexadecimal string. -/
theorem C5_two_identifiers_per_file (rands : Nat → Nat) (k : Nat)
    (files : List (Text × Text × Text)) (st : LoopState) :
    (processFiles rands k files st).file_references
      = st.file_references ++ expectedFileRefs rands k files
    ∧ (processFiles rands k files st).build_file_entries
      = st.build_file_entries ++ expectedBuildFiles rands k files
    ∧ (processFiles rands k files st).sources_build_phase_entries
      = st.sources_build_phase_entries ++ expectedSources rands k files
    ∧ (∀ r : Nat, (generate_uuid r).length = 24 ∧ (generate_uuid r).all isUuidChar = true)
    ∧ (∀ (fr bf : Text) (rec : Text × Text × Text) (st2 : LoopState) (s2 e2 : Nat),
         groupMatch st2.content rec.2.2 = some (s2, e2) →
         (addFileStep fr bf rec st2).content
           = st2.content.take e2 ++ newChildEntry fr rec.1 ++ st2.content.drop e2) :=
  ⟨processFiles_file_references rands files k st,
   processFiles_build_file_entries rands files k st,
   processFiles_sources_entries rands files k st,
   fun r => ⟨generate_uuid_length r, generate_uuid_chars r⟩,
   fun fr bf rec st2 _ _ h => addFileStep_content_found fr bf rec st2 h⟩

set_option maxRecDepth 8192 in
/-- Witness for C5 (amended), at the concrete manifest `mB`: one loop iteration
with its two generated identifiers splices the child entry carrying the
file-reference identifier at the end of the Services children list. -/
theorem C5_witness :
    (addFileStep (generate_uuid (randsA 2)) (generate_uuid (randsA 3)) recFoo
        ⟨mB, [], [], [], []⟩).content
      = mB.take 229 ++ newChildEntry (generate_uuid (randsA 2)) recFoo.1 ++ mB.drop 229 :=
  (C5_two_identifiers_per_file randsA 0 [] ⟨[], [], [], [], []⟩).2.2.2.2
    (generate_uuid (randsA 2)) (generate_uuid (randsA 3)) recFoo
    ⟨mB, [], [], [], []⟩ 228 229 (by decide)

set_option maxRecDepth 8192 in
/-- Counterexample to C2: the manifest `mNoSections` satisfies the claim's
conditions — the Sources build-phase pattern does not match, while the main
group and the record's group identifier are present — yet the run inserts NO
file-reference declaration and NO build-file declaration, because the two
declaration-section headers are also absent and their insertion steps are
silently skipped; the claim's conclusion that the declarations are still
inserted fails. -/
theorem C2_counterexample :
    mainSourcesFound mNoSections = true
    ∧ (groupMatch mNoSections recFoo.2.2).isSome = true
    ∧ sourcesMatch mNoSections = none
    ∧ (add_files_to_xcode_project randsA mNoSections [recFoo] []).ok = true
    ∧ countOccs (fileRefLine (generate_uuid (randsA 0)) recFoo.1)
        (add_files_to_xcode_project randsA mNoSections [recFoo] []).content = 0
    ∧ countOccs (buildFileLine (generate_uuid (randsA 1)) (generate_uuid (randsA 0)) recFoo.1)
        (add_files_to_xcode_project randsA mNoSections [recFoo] []).content = 0 := by decide

/-- C2 (amended): when additionally the two declaration-section headers are
found (at `p1` in the post-loop text and `p2` in the text after the
file-reference insertions) and every record's group matches, a run on a
manifest whose Sources build-phase pattern does not match still inserts the
file-reference and build-file declaration blocks — one declaration per record —
leaves the text untouched by the build-phase step (no membership entry is
added), logs the failure line for the build-phase step and for nothing else,
and returns success. -/
theorem C2_sources_missing_still_succeeds (rands : Nat → Nat) (content : Text)
    (files : List (Text × Text × Text)) (p1 p2 : Nat)
    (hmain : mainSourcesFound content = true)
    (hgroups : groupsAllFound rands 0 files ⟨content, [], [], [], []⟩ = true)
    (h1 : findLit pbxFileRefHeader (afterLoop rands content files).content = some p1)
    (h2 : findLit pbxBuildFileHeader (afterFileRefs rands content files) = some p2)
    (h3 : sourcesMatch (afterBuildFiles rands content files) = none) :
    (add_files_to_xcode_project rands content files []).ok = true
    ∧ (add_files_to_xcode_project rands content files []).content
        = afterBuildFiles rands content files
    ∧ afterFileRefs rands content files
        = (afterLoop rands content files).content.take (p1 + pbxFileRefHeader.length)
            ++ joinNl (refDeclLines rands 0 files)
            ++ (afterLoop rands content files).content.drop (p1 + pbxFileRefHeader.length)
    ∧ afterBuildFiles rands content files
        = (afterFileRefs rands content files).take (p2 + pbxBuildFileHeader.length)
            ++ joinNl (buildDeclLines rands 0 files)
            ++ (afterFileRefs rands content files).drop (p2 + pbxBuildFileHeader.length)
    ∧ (add_files_to_xcode_project rands content files []).log
        = files.map (fun f => lit "✓ Added " ++ f.1 ++ lit " to group")
          ++ [lit "✓ Added " ++ natText files.length ++ lit " file references",
              lit "✓ Added " ++ natText files.length ++ lit " build file entries",
              lit "✗ Could not find Sources build phase"] := by
  have hrefs : (afterLoop rands content files).file_references
      = expectedFileRefs rands 0 files := by
    rw [afterLoop, processFiles_file_references rands files 0]
    simp
  have hbuilds : (afterLoop rands content files).build_file_entries
      = expectedBuildFiles rands 0 files := by
    rw [afterLoop, processFiles_build_file_entries rands files 0]
    simp
  have hlog : (afterLoop rands content files).log
      = files.map (fun f => lit "✓ Added " ++ f.1 ++ lit " to group") := by
    rw [afterLoop, processFiles_log_all_found rands files 0 _ hgroups]
    simp
  have hAF : afterFileRefs rands content files
      = (afterLoop rands content files).content.take (p1 + pbxFileRefHeader.length)
          ++ joinNl (refDeclLines rands 0 files)
          ++ (afterLoop rands content files).content.drop (p1 + pbxFileRefHeader.length) := by
    show (insertFileRefSection (afterLoop rands content files).content
      (afterLoop rands content files).file_references).1 = _
    rw [insertFileRefSection_found _ _ h1, hrefs]
    rfl
  have hAB : afterBuildFiles rands content files
      = (afterFileRefs rands content files).take (p2 + pbxBuildFileHeader.length)
          ++ joinNl (buildDeclLines rands 0 files)
          ++ (afterFileRefs rands content files).drop (p2 + pbxBuildFileHeader.length) := by
    show (insertBuildFileSection (afterFileRefs rands content files)
      (afterLoop rands content files).build_file_entries).1 = _
    rw [insertBuildFileSection_found _ _ h2, hbuilds]
    rfl
  have hmain_eq := add_files_pos_eq rands content files [] hmain
  refine ⟨by rw [hmain_eq], ?_, hAF, hAB, ?_⟩
  · rw [hmain_eq]
    show (insertSourcesPhase (afterBuildFiles rands content files)
      (afterLoop rands content files).sources_build_phase_entries).1 = _
    rw [insertSourcesPhase_notfound _ _ h3]
  · rw [hmain_eq]
    show (afterLoop rands content files).log
        ++ (insertFileRefSection (afterLoop rands content files).content
              (afterLoop rands content files).file_references).2
        ++ (insertBuildFileSection (afterFileRefs rands content files)
              (afterLoop rands content files).build_file_entries).2
        ++ (insertSourcesPhase (afterBuildFiles rands content files)
              (afterLoop rands content files).sources_build_phase_entries).2 = _
    rw [insertFileRefSection_found _ _ h1, insertBuildFileSection_found _ _ h2,
      insertSourcesPhase_notfound _ _ h3, hlog, hrefs, hbuilds,
      expectedFileRefs_length rands 0 files, expectedBuildFiles_length rands 0 files]
    simp

set_option maxRecDepth 8192 in
/-- Witness for C2 (amended): the manifest `mB` has both section headers, the
main group and the Services group, but no Sources build phase; the run returns
success and the build-phase step leaves the text unchanged. -/
theorem C2_witness :
    (add_files_to_xcode_project randsA mB [recFoo] []).ok = true
    ∧ (add_files_to_xcode_project randsA mB [recFoo] []).content
        = afterBuildFiles randsA mB [recFoo] := by
  have h := C2_sources_missing_still_succeeds randsA mB [recFoo] 64 0
    (by decide) (by decide) (by decide) (by decide) (by decide)
  exact ⟨h.1, h.2.1⟩

/-- C1: on a manifest where the main group is found, the section headers are
found (at `p1`, `p2`) and the Sources build phase matches (capture span
`(s, e)`), one run returns success and inserts, per input record, exactly one
file-reference declaration (the block after the PBXFileReference header is the
newline-joined list of one declaration per record), exactly one build-file
declaration (likewise after the PBXBuildFile header), and exactly one
build-phase membership entry (the block spliced into the Sources files list is
the concatenation of one entry per record); the declarations and entries are
cross-referenced by the same generated identifier pair — record `i` draws the
file-reference identifier at stream index `2i` and the build-file identifier at
`2i+1`, the build-file declaration of record `i` references that same
file-reference identifier, and the build-phase entry of record `i` carries that
same build-file identifier. -/
theorem C1_one_of_each_per_record (rands : Nat → Nat) (content : Text)
    (files : List (Text × Text × Text)) (p1 p2 s e : Nat)
    (hmain : mainSourcesFound content = true)
    (h1 : findLit pbxFileRefHeader (afterLoop rands content files).content = some p1)
    (h2 : findLit pbxBuildFileHeader (afterFileRefs rands content files) = some p2)
    (h3 : sourcesMatch (afterBuildFiles rands content files) = some (s, e)) :
    (add_files_to_xcode_project rands content files []).ok = true
    ∧ (afterLoop rands content files).file_references = expectedFileRefs rands 0 files
    ∧ (afterLoop rands content files).build_file_entries = expectedBuildFiles rands 0 files
    ∧ (afterLoop rands content files).sources_build_phase_entries
        = expectedSources rands 0 files
    ∧ (expectedFileRefs rands 0 files).length = files.length
    ∧ (expectedBuildFiles rands 0 files).length = files.length
    ∧ (expectedSources rands 0 files).length = files.length
    ∧ afterFileRefs rands content files
        = (afterLoop rands content files).content.take (p1 + pbxFileRefHeader.length)
            ++ joinNl (refDeclLines rands 0 files)
            ++ (afterLoop rands content files).content.drop (p1 + pbxFileRefHeader.length)
    ∧ afterBuildFiles rands content files
        = (afterFileRefs rands content files).take (p2 + pbxBuildFileHeader.length)
            ++ joinNl (buildDeclLines rands 0 files)
            ++ (afterFileRefs rands content files).drop (p2 + pbxBuildFileHeader.length)
    ∧ (add_files_to_xcode_project rands content files []).content
        = (afterBuildFiles rands content files).take e
            ++ newSourcesText (expectedSources rands 0 files)
            ++ (afterBuildFiles rands content files).drop e
    ∧ newSourcesText (expectedSources rands 0 files)
        = joinSources (expectedSources rands 0 files) := by
  have hrefs : (afterLoop rands content files).file_references
      = expectedFileRefs rands 0 files := by
    rw [afterLoop, processFiles_file_references rands files 0]
    simp
  have hbuilds : (afterLoop rands content files).build_file_entries
      = expectedBuildFiles rands 0 files := by
    rw [afterLoop, processFiles_build_file_entries rands files 0]
    simp
  have hsrcs : (afterLoop rands content files).sources_build_phase_entries
      = expectedSources rands 0 files := by
    rw [afterLoop, processFiles_sources_entries rands files 0]
    simp
  have hAF : afterFileRefs rands content files
      = (afterLoop rands content files).content.take (p1 + pbxFileRefHeader.length)
          ++ joinNl (refDeclLines rands 0 files)
          ++ (afterLoop rands content files).content.drop (p1 + pbxFileRefHeader.length) := by
    show (insertFileRefSection (afterLoop rands content files).content
      (afterLoop rands content files).file_references).1 = _
    rw [insertFileRefSection_found _ _ h1, hrefs]
    rfl
  have hAB : afterBuildFiles rands content files
      = (afterFileRefs rands content files).take (p2 + pbxBuildFileHeader.length)
          ++ joinNl (buildDeclLines rands 0 files)
          ++ (afterFileRefs rands content files).drop (p2 + pbxBuildFileHeader.length) := by
    show (insertBuildFileSection (afterFileRefs rands content files)
      (afterLoop rands content files).build_file_entries).1 = _
    rw [insertBuildFileSection_found _ _ h2, hbuilds]
    rfl
  have hmain_eq := add_files_pos_eq rands content files [] hmain
  refine ⟨by rw [hmain_eq], hrefs, hbuilds, hsrcs,
    expectedFileRefs_length rands 0 files, expectedBuildFiles_length rands 0 files,
    expectedSources_length rands 0 files, hAF, hAB, ?_,
    newSourcesText_eq (expectedSources rands 0 files)⟩
  rw [hmain_eq]
  show (insertSourcesPhase (afterBuildFiles rands content files)
    (afterLoop rands content files).sources_build_phase_entries).1 = _
  rw [insertSourcesPhase_found _ _ h3, hsrcs]

set_option maxRecDepth 8192 in
/-- Witness for C1: on the concrete manifest `mA` with the single record
`recFoo`, every anchor is found (`p1 = 64`, `p2 = 0`, Sources span
`(613, 614)`) and the run returns success. -/
theorem C1_witness :
    (add_files_to_xcode_project randsA mA [recFoo] []).ok = true :=
  (C1_one_of_each_per_record randsA mA [recFoo] 64 0 613 614
    (by decide) (by decide) (by decide) (by decide)).1

set_option maxRecDepth 8192 in
set_option maxHeartbeats 2000000 in
/-- C4: running the tool twice in succession is not idempotent, demonstrated on
the concrete manifest `mA` with the record `Foo.swift`: after one run the
edited text contains exactly one file-reference declaration, one build-file
declaration, one group-children entry and one build-phase entry for
`Foo.swift`; running the tool again on that output (with fresh identifiers)
inserts a second copy of each — no deduplication suppresses the duplicates —
and both runs return success. -/
theorem C4_not_idempotent :
    (add_files_to_xcode_project randsA mA [recFoo] []).ok = true
    ∧ (add_files_to_xcode_project (fun k => randsA (k + 2))
        (add_files_to_xcode_project randsA mA [recFoo] []).content [recFoo] []).ok = true
    ∧ countOccs (lit "/* Foo.swift */ = \x7bisa = PBXFileReference")
        (add_files_to_xcode_project randsA mA [recFoo] []).content = 1
    ∧ countOccs (lit "/* Foo.swift */ = \x7bisa = PBXFileReference")
        (add_files_to_xcode_project (fun k => randsA (k + 2))
          (add_files_to_xcode_project randsA mA [recFoo] []).content [recFoo] []).content = 2
    ∧ countOccs (lit "/* Foo.swift in Sources */ = \x7bisa = PBXBuildFile")
        (add_files_to_xcode_project randsA mA [recFoo] []).content = 1
    ∧ countOccs (lit "/* Foo.swift in Sources */ = \x7bisa = PBXBuildFile")
        (add_files_to_xcode_project (fun k => randsA (k + 2))
          (add_files_to_xcode_project randsA mA [recFoo] []).content [recFoo] []).content = 2
    ∧ countOccs (lit "/* Foo.swift */,")
        (add_files_to_xcode_project randsA mA [recFoo] []).content = 1
    ∧ countOccs (lit "/* Foo.swift */,")
        (add_files_to_xcode_project (fun k => randsA (k + 2))
          (add_files_to_xcode_project randsA mA [recFoo] []).content [recFoo] []).content = 2
    ∧ countOccs (lit "/* Foo.swift in Sources */,")
        (add_files_to_xcode_project randsA mA [recFoo] []).content = 1
    ∧ countOccs (lit "/* Foo.swift in Sources */,")
        (add_files_to_xcode_project (fun k => randsA (k + 2))
          (add_files_to_xcode_project randsA mA [recFoo] []).content [recFoo] []).content = 2 := by
  decide

end Claims

end PetSafetyXcode
